import Mathlib

/-!
A verification development for the chunking / hierarchical-summarization
pipeline of `summarizer.py` (class `PdfSummarizer`).

The external collaborators (HuggingFace tokenizer, summarization pipeline,
pypdf reader) are modelled as explicit function parameters:

* the tokenizer is a pair of functions `encode : String → List Nat`,
  `decode : List Nat → String`;
* the bounded summarizer (`self.pipe`) is a function
  `String → Option (List Summary)`: `none` models a raised exception,
  `some []` models an empty `summary_list`, and `some (s :: _)` a
  successful call whose first element carries `summary_text = s`;
* a PDF is modelled by its list of pages, each page being the result of
  `page.extract_text()` (`none` when the page has no extractable text).

Python `str.strip()` is modelled over the ASCII whitespace characters,
`"sep".join(...)` by `pyJoin`, and `str.splitlines()` by `pySplitlines`
(splitting on the newline character).  Token counts and indices are
modelled as `Nat`; Python's `max(0, end - overlap)` coincides with
truncated `Nat` subtraction `end - overlap`.
-/

namespace Summarizer

/-- The ASCII whitespace characters stripped by Python's `str.strip()`. -/
def isPySpace (c : Char) : Bool :=
  c = ' ' || c = '\t' || c = '\n' || c = '\r' || c = '\x0b' || c = '\x0c'

/-- Strip leading and trailing whitespace characters from a character list. -/
def stripChars (cs : List Char) : List Char :=
  ((cs.dropWhile isPySpace).reverse.dropWhile isPySpace).reverse

/-- Model of Python's `str.strip()`. -/
def pyStrip (s : String) : String :=
  ⟨stripChars s.data⟩

/-- Model of Python's `"sep".join(l)`. -/
def pyJoin (sep : String) : List String → String
  | [] => ""
  | [s] => s
  | s :: rest => s ++ sep ++ pyJoin sep rest

/-- Split a character list at newline characters (all pieces kept,
including a trailing empty piece). -/
def splitOnNl : List Char → List (List Char)
  | [] => [[]]
  | c :: cs =>
    if c = '\n' then [] :: splitOnNl cs
    else
      match splitOnNl cs with
      | [] => [[c]]
      | l :: ls => (c :: l) :: ls

/-- Model of Python's `str.splitlines()` (line separator: `'\n'`):
the empty string has no lines, and a trailing newline does not produce a
trailing empty line. -/
def pySplitlines (s : String) : List String :=
  if s.data = [] then []
  else
    let parts := splitOnNl s.data
    (if s.data.getLast? = some '\n' then parts.dropLast else parts).map
      (fun l => String.mk l)

/-- The token encoder/decoder pair required from the external tokenizer
(`self.tokenizer.encode` / `self.tokenizer.decode`). -/
structure Tokenizer where
  encode : String → List Nat
  decode : List Nat → String

/-- A concrete tokenizer instance used for evaluating the development on
closed inputs: each character is one token (its code point). -/
def charTok : Tokenizer where
  encode s := s.data.map Char.toNat
  decode ts := ⟨ts.map Char.ofNat⟩

/-- The body of the `while start < len(tokens)` loop of `_chunk_text`
(summarizer.py lines 94–104), written with explicit fuel: `none` means the
fuel was exhausted before the loop exited.  Each iteration takes the token
window `[start, min (start + maxLen) (len tokens))`, decodes and strips it,
appends it when non-empty, stops when the window reached the end of the
token sequence, and otherwise continues from `end - overlap`
(Python's `max(0, end - overlap)` is `Nat` subtraction here). -/
def chunkLoop (decode : List Nat → String) (tokens : List Nat)
    (maxLen overlap : Nat) : Nat → Nat → Option (List String)
  | 0, _ => none
  | fuel + 1, start =>
    if start < tokens.length then
      let e := min (start + maxLen) tokens.length
      let chunk_ids := (tokens.drop start).take (e - start)
      let ct := pyStrip (decode chunk_ids)
      match (if e = tokens.length then some [] else
          chunkLoop decode tokens maxLen overlap fuel (e - overlap)) with
      | none => none
      | some rest => some (if ct ≠ "" then ct :: rest else rest)
    else
      some []

/-- Model of `_chunk_text` (summarizer.py lines 81–104): empty/whitespace-only text
gives no chunks; a text whose encoding fits in `maxLen` tokens gives the
single chunk `text.strip()`; otherwise the overlapping-window loop runs
(with fuel `tokens.length + 1`, which the termination theorem shows is
enough whenever `overlap < maxLen`). -/
def chunk_text (tok : Tokenizer) (maxLen overlap : Nat) (text : String) :
    Option (List String) :=
  if pyStrip text = "" then some []
  else
    let tokens := tok.encode text
    if tokens.length ≤ maxLen then some [pyStrip text]
    else chunkLoop tok.decode tokens maxLen overlap (tokens.length + 1) 0

/-- The same loop as `chunkLoop`, recording the token windows
`(start, end)` instead of the decoded chunk texts. -/
def chunkWindowsLoop (n maxLen overlap : Nat) :
    Nat → Nat → Option (List (Nat × Nat))
  | 0, _ => none
  | fuel + 1, start =>
    if start < n then
      let e := min (start + maxLen) n
      match (if e = n then some [] else
          chunkWindowsLoop n maxLen overlap fuel (e - overlap)) with
      | none => none
      | some rest => some ((start, e) :: rest)
    else
      some []

/-- The token windows traversed by `_chunk_text` on a token sequence of
length `n`, starting from index `0` with the loop's fuel. -/
def chunk_windows (n maxLen overlap : Nat) : Option (List (Nat × Nat)) :=
  chunkWindowsLoop n maxLen overlap (n + 1) 0

/-- Decode, strip and filter the chunks determined by a list of token
windows — the value produced by the chunking loop on those windows. -/
def windowChunks (decode : List Nat → String) (tokens : List Nat)
    (ws : List (Nat × Nat)) : List String :=
  (ws.map (fun w => pyStrip (decode ((tokens.drop w.1).take (w.2 - w.1))))).filter
    (fun s => decide (s ≠ ""))

/-- Model of `_is_persian` (summarizer.py lines 152–154): a text is flagged as
Persian script iff some character lies in the Unicode range
U+0600–U+06FF. -/
def is_persian (text : String) : Bool :=
  text.data.any (fun ch => decide ('؀' ≤ ch ∧ ch ≤ 'ۿ'))

/-- The Persian first-pass prompt (`base_prefix`, summarizer.py
lines 114–118). -/
def base_prompt_fa : String :=
  "خلاصه‌ای دقیق، مختصر و کاملاً بر اساس متن زیر بنویس. " ++
  "هیچ اطلاعات جدیدی اضافه نکن و فقط به محتوای داده‌شده وفادار بمان. " ++
  "اگر ممکن، روی علل، اثرات و راه‌حل‌ها تمرکز کن: "

/-- The Persian reduction-pass prompt (`hierarchical_prefix`, summarizer.py
lines 119–122). -/
def hierarchical_prompt_fa : String :=
  "خلاصه کلی دقیق و یکپارچه از خلاصه‌های زیر بنویس. " ++
  "بدون تغییر معنا یا اضافه کردن اطلاعات، فقط بر اساس محتوای موجود: "

/-- The English first-pass prompt (`base_prefix`, summarizer.py
lines 124–128). -/
def base_prompt_en : String :=
  "Write a precise, concise summary strictly based on the following text. " ++
  "Do not add any new information or external knowledge; stick only to the provided content. " ++
  "If applicable, focus on causes, effects, and solutions: "

/-- The English reduction-pass prompt (`hierarchical_prefix`, summarizer.py
lines 129–132). -/
def hierarchical_prompt_en : String :=
  "Write an overall precise and integrated summary of the following summaries. " ++
  "Do not alter meanings or add new information; base it solely on the given content: "

/-- The prompt selection performed by `_summarize_chunk`
(summarizer.py lines 112–134): the script family of the chunk picks the
Persian or English pair, and `is_hierarchical` picks the reduction
variant within the pair. -/
def selectPrompt (chunk : String) (is_hierarchical : Bool) : String :=
  if is_persian chunk then
    if is_hierarchical then hierarchical_prompt_fa else base_prompt_fa
  else
    if is_hierarchical then hierarchical_prompt_en else base_prompt_en

/-- Model of `_summarize_chunk` (summarizer.py lines 107–149).  The bounded
summarizer `pipe` models `self.pipe`: `none` is a raised exception (caught
by the `try/except`, which logs a warning and returns `""`), `some []` an
empty `summary_list`, and `some (s :: _)` a success whose first summary
text is `s` (returned stripped). -/
def summarize_chunk (pipe : String → Option (List String)) (chunk : String)
    (is_hierarchical : Bool) : String :=
  if pyStrip chunk = "" then ""
  else
    let input_text := selectPrompt chunk is_hierarchical ++ pyStrip chunk
    match pipe input_text with
    | none => ""
    | some [] => ""
    | some (s :: _) => pyStrip s

/-- Model of `summarize_text` (summarizer.py lines 157–176), instrumented with the
list of `_summarize_chunk` invocations it performs, in order: each entry is
the `(chunk, is_hierarchical)` argument pair of one invocation.  Returns
`none` only when the chunking loop would exhaust its fuel. -/
def summarize_text_tr (tok : Tokenizer) (maxLen overlap : Nat)
    (pipe : String → Option (List String)) (text : String) :
    Option (String × List (String × Bool)) :=
  if pyStrip text = "" then some ("", [])
  else
    match chunk_text tok maxLen overlap text with
    | none => none
    | some chunks =>
      if chunks = [] then some ("", [])
      else
        let calls0 := chunks.map (fun c => (c, false))
        let first_pass :=
          (chunks.map (fun c => summarize_chunk pipe c false)).filter
            (fun s => decide (pyStrip s ≠ ""))
        if first_pass = [] then some ("", calls0)
        else if first_pass.length > 4 then
          let joined := pyJoin "\n\n" first_pass
          let hierarchical_summary := summarize_chunk pipe joined true
          if pyStrip hierarchical_summary ≠ "" then
            some (hierarchical_summary, calls0 ++ [(joined, true)])
          else
            some (pyJoin "\n\n" first_pass, calls0 ++ [(joined, true)])
        else some (pyJoin "\n\n" first_pass, calls0)

/-- Model of `summarize_text` (summarizer.py lines 157–176): the summary string,
forgetting the invocation trace. -/
def summarize_text (tok : Tokenizer) (maxLen overlap : Nat)
    (pipe : String → Option (List String)) (text : String) : Option String :=
  (summarize_text_tr tok maxLen overlap pipe text).map (fun r => r.1)

/-- Model of `extract_text_from_pdf_bytes` (summarizer.py lines 65–78), with the
external `PdfReader` replaced by the list of its pages; each page is the
result of `page.extract_text()` (`none` when there is no extractable text,
replaced by `""` by the `or ""`).  Pages are joined with blank lines, then
every line is stripped and empty lines are dropped. -/
def extract_text_from_pdf_pages (pages : List (Option String)) : String :=
  if pages = [] then ""
  else
    let pages_text := pages.map (fun p => p.getD "")
    let text := pyJoin "\n\n" pages_text
    pyJoin "\n"
      (((pySplitlines text).map pyStrip).filter (fun s => decide (s ≠ "")))

/-- Model of `summarize_pdf_bytes` (summarizer.py lines 178–182): extract the full
text from the PDF pages, summarize it, and return the pair
`(full_text, summary)`. -/
def summarize_pdf_bytes (tok : Tokenizer) (maxLen overlap : Nat)
    (pipe : String → Option (List String)) (pages : List (Option String)) :
    Option (String × String) :=
  let full_text := extract_text_from_pdf_pages pages
  match summarize_text tok maxLen overlap pipe full_text with
  | none => none
  | some summary => some (full_text, summary)

/-- Model of `SummarizationConfig` (summarizer.py lines 13–23).  Python ints are
`Int`; the float `temperature` is modelled as a rational. -/
structure SummarizationConfig where
  model_name : String := "csebuetnlp/mT5_multilingual_XLSum"
  device : Option Int := none
  max_chunk_tokens : Int := 512
  chunk_overlap_tokens : Int := 50
  min_summary_tokens : Int := 50
  max_summary_tokens : Int := 150
  do_sample : Bool := true
  temperature : ℚ := (1 : ℚ) / 2

/-- The configuration validation performed by `PdfSummarizer.__init__`
(summarizer.py lines 29–38) before any pipeline use; the subsequent device
auto-detection and model loading are external effects and are not
modelled.  `Except.error` models the raised `ValueError`. -/
def pdfSummarizerValidate (config : SummarizationConfig) :
    Except String Unit :=
  if config.max_chunk_tokens ≤ config.chunk_overlap_tokens then
    Except.error "max_chunk_tokens must be greater than chunk_overlap_tokens"
  else if config.min_summary_tokens ≥ config.max_summary_tokens then
    Except.error "min_summary_tokens must be less than max_summary_tokens"
  else if config.temperature < 0 ∨ config.temperature > 2 then
    Except.error "temperature must be between 0 and 2"
  else
    Except.ok ()

/-! ### Properties of `pyStrip` -/

lemma dropWhile_idem {α : Type} (p : α → Bool) (l : List α) :
    (l.dropWhile p).dropWhile p = l.dropWhile p := by
  induction l with
  | nil => rfl
  | cons a t ih =>
    cases h : p a <;> simp [List.dropWhile_cons, h, ih]

lemma stripChars_reverse_dropWhile (cs : List Char) :
    (stripChars cs).reverse.dropWhile isPySpace = (stripChars cs).reverse := by
  unfold stripChars
  rw [List.reverse_reverse]
  exact dropWhile_idem ..

lemma stripChars_dropWhile (cs : List Char) :
    (stripChars cs).dropWhile isPySpace = stripChars cs := by
  unfold stripChars
  cases h : cs.dropWhile isPySpace with
  | nil => simp
  | cons x t =>
    have hx : isPySpace x = false := by
      cases hpx : isPySpace x with
      | false => rfl
      | true =>
        have hidem := dropWhile_idem isPySpace cs
        rw [h, List.dropWhile_cons, if_pos hpx] at hidem
        have := congrArg List.length hidem
        have hle := (List.dropWhile_sublist (l := t) isPySpace).length_le
        simp at this
        omega
    rw [List.reverse_cons, List.dropWhile_append]
    split
    · simp [List.dropWhile_cons, hx]
    · rw [List.reverse_append, List.reverse_singleton, List.singleton_append,
        List.dropWhile_cons, if_neg (by simp [hx])]

lemma stripChars_idem (cs : List Char) :
    stripChars (stripChars cs) = stripChars cs := by
  conv_lhs => rw [show stripChars (stripChars cs) =
    (((stripChars cs).dropWhile isPySpace).reverse.dropWhile isPySpace).reverse from rfl]
  rw [stripChars_dropWhile, stripChars_reverse_dropWhile, List.reverse_reverse]

lemma pyStrip_idem (s : String) : pyStrip (pyStrip s) = pyStrip s := by
  show (⟨stripChars (stripChars s.data)⟩ : String) = ⟨stripChars s.data⟩
  rw [stripChars_idem]

lemma pyStrip_empty : pyStrip "" = "" := rfl

/-! ### The chunking loop: termination, window layout, chunk values -/

/-- With the configuration invariant `overlap < maxLen`, the loop start
index strictly increases on every iteration, so fuel `n - start` suffices:
the window loop never exhausts its fuel. -/
lemma chunkWindowsLoop_total (n maxLen overlap : Nat) (hov : overlap < maxLen) :
    ∀ fuel start, n - start < fuel →
      ∃ ws, chunkWindowsLoop n maxLen overlap fuel start = some ws := by
  intro fuel
  induction fuel with
  | zero => intro start h; omega
  | succ fuel ih =>
    intro start h
    simp only [chunkWindowsLoop]
    by_cases hs : start < n
    · rw [if_pos hs]
      by_cases hend : min (start + maxLen) n = n
      · rw [if_pos hend]
        exact ⟨_, rfl⟩
      · rw [if_neg hend]
        obtain ⟨ws, hws⟩ :=
          ih (min (start + maxLen) n - overlap) (by omega)
        rw [hws]
        exact ⟨_, rfl⟩
    · rw [if_neg hs]
      exact ⟨_, rfl⟩

/-- The chunk texts produced by `chunkLoop` are exactly the decoded,
stripped, non-empty chunks of the token windows produced by
`chunkWindowsLoop`. -/
lemma chunkLoop_eq_windows (decode : List Nat → String) (tokens : List Nat)
    (maxLen overlap : Nat) :
    ∀ fuel start,
      chunkLoop decode tokens maxLen overlap fuel start =
        (chunkWindowsLoop tokens.length maxLen overlap fuel start).map
          (windowChunks decode tokens) := by
  intro fuel
  induction fuel with
  | zero => intro start; rfl
  | succ fuel ih =>
    intro start
    simp only [chunkLoop, chunkWindowsLoop]
    by_cases hs : start < tokens.length
    · rw [if_pos hs, if_pos hs]
      by_cases hend : min (start + maxLen) tokens.length = tokens.length
      · rw [if_pos hend, if_pos hend]
        simp only [Option.map_some']
        unfold windowChunks
        simp only [List.map_cons, List.map_nil, List.filter_cons,
          List.filter_nil, decide_eq_true_eq]
      · rw [if_neg hend, if_neg hend, ih]
        cases hrec : chunkWindowsLoop tokens.length maxLen overlap fuel
            (min (start + maxLen) tokens.length - overlap) with
        | none => rfl
        | some ws =>
          simp only [Option.map_some']
          unfold windowChunks
          simp only [List.map_cons, List.filter_cons, decide_eq_true_eq]
    · rw [if_neg hs, if_neg hs]
      rfl

/-- The window-layout invariant of the chunking loop: starting from
`start < n`, the produced windows begin at `start`, are at most `maxLen`
wide, non-empty and inside the token sequence; each successive window
starts at the previous window's end minus the overlap; starts strictly
increase; and the final window ends exactly at `n`. -/
lemma chunkWindowsLoop_spec (n maxLen overlap : Nat) (hov : overlap < maxLen) :
    ∀ fuel start ws, start < n →
      chunkWindowsLoop n maxLen overlap fuel start = some ws →
      ws.head? = some (start, min (start + maxLen) n) ∧
      (∀ w ∈ ws, w.2 - w.1 ≤ maxLen ∧ w.1 < w.2 ∧ w.2 ≤ n) ∧
      List.Chain' (fun a b => b.1 = a.2 - overlap) ws ∧
      List.Chain' (fun a b => a.1 < b.1) ws ∧
      ws.getLast?.map Prod.snd = some n := by
  intro fuel
  induction fuel with
  | zero =>
    intro start ws _ h
    exact absurd h (by simp [chunkWindowsLoop])
  | succ fuel ih =>
    intro start ws hs h
    simp only [chunkWindowsLoop, if_pos hs] at h
    by_cases hend : min (start + maxLen) n = n
    · rw [if_pos hend] at h
      obtain rfl : (start, min (start + maxLen) n) :: [] = ws := by
        simpa using h

      refine ⟨rfl, ?_, ?_, ?_, ?_⟩
      · intro w hw
        simp only [List.mem_singleton] at hw
        subst hw
        simp only
        omega
      · simp
      · simp
      · simp [hend]
    · rw [if_neg hend] at h
      cases hrec : chunkWindowsLoop n maxLen overlap fuel
          (min (start + maxLen) n - overlap) with
      | none => rw [hrec] at h; exact absurd h (by simp)
      | some rest =>
        rw [hrec] at h
        obtain rfl : (start, min (start + maxLen) n) :: rest = ws := by
          simpa using h
        have hs' : min (start + maxLen) n - overlap < n := by omega
        obtain ⟨hhead, hall, hch1, hch2, hlast⟩ := ih _ rest hs' hrec
        obtain ⟨b, rest', rfl⟩ : ∃ b rest', rest = b :: rest' := by
          cases rest with
          | nil => simp at hhead
          | cons b rest' => exact ⟨b, rest', rfl⟩
        have hb : b = (min (start + maxLen) n - overlap,
            min (min (start + maxLen) n - overlap + maxLen) n) := by
          simpa using hhead
        refine ⟨rfl, ?_, ?_, ?_, ?_⟩
        · intro w hw
          rcases List.mem_cons.mp hw with rfl | hw
          · simp only
            omega
          · exact hall w hw
        · rw [List.chain'_cons']
          refine ⟨?_, hch1⟩
          intro y hy
          simp only [List.head?_cons, Option.mem_def, Option.some.injEq] at hy
          subst hy
          rw [hb]
        · rw [List.chain'_cons']
          refine ⟨?_, hch2⟩
          intro y hy
          simp only [List.head?_cons, Option.mem_def, Option.some.injEq] at hy
          subst hy
          rw [hb]
          simp only
          omega
        · rw [List.getLast?_cons_cons]
          exact hlast

/-- The function `_chunk_text` terminates (the loop fuel is never exhausted) whenever
`overlap < maxLen`. -/
lemma chunk_text_total (tok : Tokenizer) (maxLen overlap : Nat)
    (text : String) (hov : overlap < maxLen) :
    ∃ cs, chunk_text tok maxLen overlap text = some cs := by
  by_cases h1 : pyStrip text = ""
  · exact ⟨[], by simp [chunk_text, h1]⟩
  · by_cases h2 : (tok.encode text).length ≤ maxLen
    · exact ⟨[pyStrip text], by simp [chunk_text, h1, h2]⟩
    · obtain ⟨ws, hws⟩ := chunkWindowsLoop_total (tok.encode text).length
        maxLen overlap hov ((tok.encode text).length + 1) 0 (by omega)
      refine ⟨windowChunks tok.decode (tok.encode text) ws, ?_⟩
      simp only [chunk_text, if_neg h1, if_neg h2]
      rw [chunkLoop_eq_windows, hws]
      rfl

/-! ### C1, C6, C7, C9 -/

/-- C1 counterexample: the claim says that on a short non-whitespace input
`_chunk_text` returns the input text unchanged, but the code (line 92)
returns `[text.strip()]`: on `" a "` it returns `["a"]`, not `[" a "]`. -/
theorem chunk_text_strips_short_input_cex :
    pyStrip " a " ≠ "" ∧ (charTok.encode " a ").length ≤ 512 ∧
      chunk_text charTok 512 50 " a " ≠ some [" a "] ∧
      chunk_text charTok 512 50 " a " = some ["a"] := by
  decide

/-- C1 (amended): for every input text that is not empty or
whitespace-only and whose tokenizer encoding has length at most
`max_chunk_tokens`, `_chunk_text` returns exactly one element, and that
element is the input text stripped of leading/trailing whitespace
(`text.strip()`), hence the input unchanged whenever it carries no
surrounding whitespace. -/
theorem chunk_text_short_input (tok : Tokenizer) (maxLen overlap : Nat)
    (text : String) (hne : pyStrip text ≠ "")
    (hlen : (tok.encode text).length ≤ maxLen) :
    chunk_text tok maxLen overlap text = some [pyStrip text] := by
  simp only [chunk_text, if_neg hne, if_pos hlen]

/-- Witness for C1 (amended) at a concrete input. -/
theorem chunk_text_short_input_witness :
    (pyStrip "hello" ≠ "" ∧ (charTok.encode "hello").length ≤ 512) ∧
      chunk_text charTok 512 50 "hello" = some [pyStrip "hello"] :=
  ⟨⟨by decide, by decide⟩,
    chunk_text_short_input charTok 512 50 "hello" (by decide) (by decide)⟩

/-- C6 counterexample: the claim says construction fails whenever the
temperature lies outside `0 < t ≤ 2`, but `PdfSummarizer.__init__`
(line 37) only rejects `t < 0` or `t > 2`: a configuration with
`temperature = 0` (outside `0 < t ≤ 2`) passes validation. -/
theorem pdfSummarizerValidate_zero_temperature_cex :
    pdfSummarizerValidate { temperature := 0 } = Except.ok () ∧
      ¬(0 < ({ temperature := 0 } : SummarizationConfig).temperature) := by
  refine ⟨rfl, by norm_num⟩

/-- C6 (amended): configuration validation at construction time succeeds
exactly when `chunk_overlap_tokens < max_chunk_tokens`,
`min_summary_tokens < max_summary_tokens` and the temperature lies in the
closed range `0 ≤ t ≤ 2`; otherwise it raises before any pipeline use. -/
theorem pdfSummarizerValidate_ok_iff (config : SummarizationConfig) :
    pdfSummarizerValidate config = Except.ok () ↔
      (config.chunk_overlap_tokens < config.max_chunk_tokens ∧
       config.min_summary_tokens < config.max_summary_tokens ∧
       0 ≤ config.temperature ∧ config.temperature ≤ 2) := by
  unfold pdfSummarizerValidate
  split_ifs with h1 h2 h3
  · exact iff_of_false (by simp) (fun h => absurd h.1 (not_lt.mpr h1))
  · exact iff_of_false (by simp) (fun h => absurd h.2.1 (not_lt.mpr h2))
  · refine iff_of_false (by simp) (fun h => ?_)
    rcases h3 with h3 | h3
    · exact absurd h.2.2.1 (not_le.mpr h3)
    · exact absurd h.2.2.2 (not_le.mpr h3)
  · push_neg at h1 h2 h3
    exact iff_of_true rfl ⟨h1, h2, h3.1, h3.2⟩

/-- Witness for C6 (amended): the default configuration satisfies the
three accepted invariants and validates. -/
theorem pdfSummarizerValidate_ok_iff_witness :
    pdfSummarizerValidate {} = Except.ok () :=
  (pdfSummarizerValidate_ok_iff {}).mpr (by norm_num)

/-- C7: for the empty string and every whitespace-only string,
`_chunk_text` returns the empty sequence and `summarize_text` returns the
empty string, without error. -/
theorem whitespace_input_yields_empty (tok : Tokenizer) (maxLen overlap : Nat)
    (pipe : String → Option (List String)) (text : String)
    (h : pyStrip text = "") :
    chunk_text tok maxLen overlap text = some [] ∧
      summarize_text tok maxLen overlap pipe text = some "" := by
  constructor
  · unfold chunk_text
    rw [if_pos h]
  · unfold summarize_text summarize_text_tr
    rw [if_pos h]
    rfl

/-- Witness for C7 at the empty string and a whitespace-only string. -/
theorem whitespace_input_yields_empty_witness :
    (pyStrip " \t " = "" ∧
      chunk_text charTok 512 50 " \t " = some [] ∧
      summarize_text charTok 512 50 (fun _ => none) " \t " = some "") ∧
    (pyStrip "" = "" ∧
      chunk_text charTok 512 50 "" = some [] ∧
      summarize_text charTok 512 50 (fun _ => none) "" = some "") :=
  ⟨⟨by decide, whitespace_input_yields_empty charTok 512 50 (fun _ => none)
      " \t " (by decide)⟩,
   ⟨by decide, whitespace_input_yields_empty charTok 512 50 (fun _ => none)
      "" (by decide)⟩⟩

/-- C9 counterexample: the claim says a mixed-script chunk defaults to the
non-classified family, but `_is_persian` (line 154) flags any chunk that
contains at least one Persian/Arabic-block character: the mixed chunk
`"aب"` receives the Persian first-pass prompt, not an English one. -/
theorem selectPrompt_mixed_script_cex :
    is_persian "aب" = true ∧
      (∃ c ∈ "aب".data, ¬('؀' ≤ c ∧ c ≤ 'ۿ')) ∧
      selectPrompt "aب" false = base_prompt_fa ∧
      base_prompt_fa ≠ base_prompt_en ∧
      base_prompt_fa ≠ hierarchical_prompt_en := by
  refine ⟨rfl, ⟨'a', by decide⟩, rfl, ?_, ?_⟩ <;>
    · intro h
      exact absurd (congrArg (fun s => s.data.head?) h) (by decide)

/-- C9 (amended): prompt selection is a pure function of the chunk text
and the reduction-pass flag; a chunk is classified into the Persian/Arabic
script family iff it contains at least one character in the Persian/Arabic
Unicode block U+0600–U+06FF (so a mixed-script chunk containing such a
character is classified into that family, not the default one); the
selected prompt is one of exactly four fixed templates determined by the
pair (classified-or-not, first-pass-or-reduction); classification never
raises (it is total). -/
theorem selectPrompt_spec (chunk : String) (b : Bool) :
    (is_persian chunk = true ↔ ∃ c ∈ chunk.data, '؀' ≤ c ∧ c ≤ 'ۿ') ∧
    (selectPrompt chunk b = base_prompt_en ∨
      selectPrompt chunk b = hierarchical_prompt_en ∨
      selectPrompt chunk b = base_prompt_fa ∨
      selectPrompt chunk b = hierarchical_prompt_fa) ∧
    (selectPrompt chunk b =
      if is_persian chunk then
        (if b then hierarchical_prompt_fa else base_prompt_fa)
      else
        (if b then hierarchical_prompt_en else base_prompt_en)) := by
  refine ⟨?_, ?_, rfl⟩
  · simp [is_persian]
  · unfold selectPrompt
    split_ifs <;> tauto

/-! ### C2, C5, C10 -/

/-- C2: for every input text whose tokenizer encoding has strictly more
than `max_chunk_tokens` tokens (and which reaches the chunking loop), the
token windows traversed by `_chunk_text` — which determine its output, as
stated by the second conjunct — satisfy: each window is at most
`max_chunk_tokens` wide, each non-final window is followed by a window
starting at its end minus `chunk_overlap_tokens`, window starts strictly
increase, and the final window ends at the total token count; in
particular with `max_chunk_tokens = 900` and `chunk_overlap_tokens = 100`,
an input encoding to 2000 tokens yields exactly the windows
`[0,900)`, `[800,1700)`, `[1600,2000)`. -/
theorem chunk_text_window_layout (tok : Tokenizer) (maxLen overlap : Nat)
    (text : String) (hov : overlap < maxLen) (hne : pyStrip text ≠ "")
    (hlong : maxLen < (tok.encode text).length) :
    (∃ ws, chunk_windows (tok.encode text).length maxLen overlap = some ws ∧
      chunk_text tok maxLen overlap text =
        some (windowChunks tok.decode (tok.encode text) ws) ∧
      (∀ w ∈ ws, w.2 - w.1 ≤ maxLen) ∧
      List.Chain' (fun a b => b.1 = a.2 - overlap) ws ∧
      List.Chain' (fun a b => a.1 < b.1) ws ∧
      ws.getLast?.map Prod.snd = some (tok.encode text).length) ∧
    chunk_windows 2000 900 100 = some [(0, 900), (800, 1700), (1600, 2000)] := by
  constructor
  · obtain ⟨ws, hws⟩ := chunkWindowsLoop_total (tok.encode text).length maxLen
      overlap hov ((tok.encode text).length + 1) 0 (by omega)
    obtain ⟨hhead, hall, hch1, hch2, hlast⟩ :=
      chunkWindowsLoop_spec (tok.encode text).length maxLen overlap hov _ 0 ws
        (by omega) hws
    refine ⟨ws, hws, ?_, fun w hw => (hall w hw).1, hch1, hch2, hlast⟩
    simp only [chunk_text, if_neg hne, if_neg (not_le.mpr hlong)]
    rw [chunkLoop_eq_windows, hws]
    rfl
  · decide

/-- Witness for C2 at a concrete tokenizer and input (8 tokens, windows of
3 with overlap 1). -/
theorem chunk_text_window_layout_witness :
    (1 < 3 ∧ pyStrip "abcdefgh" ≠ "" ∧ 3 < (charTok.encode "abcdefgh").length) ∧
    ((∃ ws, chunk_windows (charTok.encode "abcdefgh").length 3 1 = some ws ∧
      chunk_text charTok 3 1 "abcdefgh" =
        some (windowChunks charTok.decode (charTok.encode "abcdefgh") ws) ∧
      (∀ w ∈ ws, w.2 - w.1 ≤ 3) ∧
      List.Chain' (fun a b => b.1 = a.2 - 1) ws ∧
      List.Chain' (fun a b => a.1 < b.1) ws ∧
      ws.getLast?.map Prod.snd = some (charTok.encode "abcdefgh").length) ∧
    chunk_windows 2000 900 100 = some [(0, 900), (800, 1700), (1600, 2000)]) :=
  ⟨⟨by decide, by decide, by decide⟩,
    chunk_text_window_layout charTok 3 1 "abcdefgh" (by decide) (by decide)
      (by decide)⟩

/-- C5: `_chunk_text` terminates on every input under the configuration
invariant `max_chunk_tokens > chunk_overlap_tokens` enforced at
construction time: the loop start strictly increases on every iteration
that does not exit, so the fuelled loop always returns a result. -/
theorem chunk_text_terminates (tok : Tokenizer) (maxLen overlap : Nat)
    (text : String) (hov : overlap < maxLen) :
    ∃ cs, chunk_text tok maxLen overlap text = some cs :=
  chunk_text_total tok maxLen overlap text hov

/-- Witness for C5 at a concrete tokenizer and input. -/
theorem chunk_text_terminates_witness :
    1 < 2 ∧ ∃ cs, chunk_text charTok 2 1 "abcdef" = some cs :=
  ⟨by decide, chunk_text_terminates charTok 2 1 "abcdef" (by decide)⟩

/-- Every chunk value selected by the loop is non-empty and fixed by a
further strip (it is itself a stripped string). -/
lemma windowChunks_mem (decode : List Nat → String) (tokens : List Nat)
    (ws : List (Nat × Nat)) (c : String)
    (hc : c ∈ windowChunks decode tokens ws) : c ≠ "" ∧ pyStrip c = c := by
  unfold windowChunks at hc
  obtain ⟨hmem, hne⟩ := List.mem_filter.mp hc
  obtain ⟨w, _, rfl⟩ := List.mem_map.mp hmem
  exact ⟨by simpa using hne, pyStrip_idem _⟩

/-- C10: every element of the sequence returned by `_chunk_text` is a
non-empty string equal to its own whitespace-strip, in both the
single-chunk case and the multi-window case. -/
theorem chunk_text_chunks_stripped (tok : Tokenizer) (maxLen overlap : Nat)
    (text : String) (cs : List String)
    (h : chunk_text tok maxLen overlap text = some cs) :
    ∀ c ∈ cs, c ≠ "" ∧ pyStrip c = c := by
  by_cases h1 : pyStrip text = ""
  · simp only [chunk_text, if_pos h1, Option.some.injEq] at h
    subst h
    simp
  · by_cases h2 : (tok.encode text).length ≤ maxLen
    · simp only [chunk_text, if_neg h1, if_pos h2, Option.some.injEq] at h
      subst h
      intro c hc
      simp only [List.mem_singleton] at hc
      subst hc
      exact ⟨h1, pyStrip_idem text⟩
    · simp only [chunk_text, if_neg h1, if_neg h2] at h
      rw [chunkLoop_eq_windows] at h
      obtain ⟨ws, _, rfl⟩ := Option.map_eq_some'.mp h
      intro c hc
      exact windowChunks_mem tok.decode (tok.encode text) ws c hc

/-- Witness for C10 at a concrete tokenizer and input covering the
multi-window case. -/
theorem chunk_text_chunks_stripped_witness :
    chunk_text charTok 2 1 "abcdef" = some ["ab", "bc", "cd", "de", "ef"] ∧
      ∀ c ∈ ["ab", "bc", "cd", "de", "ef"], c ≠ "" ∧ pyStrip c = c :=
  ⟨by decide,
    chunk_text_chunks_stripped charTok 2 1 "abcdef" _ (by decide)⟩

/-! ### The reducer: C3, C4 -/

/-- The function `_summarize_chunk` always returns an already-stripped string (the
success branch strips `summary_text`, all other branches return `""`). -/
lemma summarize_chunk_stripped (pipe : String → Option (List String))
    (chunk : String) (b : Bool) :
    pyStrip (summarize_chunk pipe chunk b) = summarize_chunk pipe chunk b := by
  simp only [summarize_chunk]
  split
  · rfl
  · cases pipe (selectPrompt chunk b ++ pyStrip chunk) with
    | none => rfl
    | some l =>
      cases l with
      | nil => rfl
      | cons s t => exact pyStrip_idem s

/-- The first-pass invocation records all carry `is_hierarchical = false`,
so filtering the trace for reduction calls drops all of them. -/
lemma filter_snd_calls (l : List String) :
    (l.map (fun c => (c, false))).filter (fun c => c.2) = [] := by
  induction l with
  | nil => rfl
  | cons a t ih => simp [List.filter_cons, ih]

/-- Helper for C4: a `_summarize_chunk` call on an input whose bounded
summarizer raises returns the empty string (the except branch). -/
lemma summarize_chunk_none (pipe : String → Option (List String))
    (chunk : String) (b : Bool)
    (hp : pipe (selectPrompt chunk b ++ pyStrip chunk) = none) :
    summarize_chunk pipe chunk b = "" := by
  simp only [summarize_chunk, hp]
  split <;> rfl

/-- C3: when `summarize_text` produces `n ≥ 1` non-empty first-pass chunk
summaries, then: if `n` is at most the fan-in threshold (4), the result is
the first-pass summaries joined with a paragraph separator in original
chunk order and no reduction call occurs; if `n` exceeds the threshold,
exactly one reduction call is made, on the joined summaries with the
reduction prompt variant (`is_hierarchical = true`), its result is
returned when non-empty, and otherwise the plain join of the first-pass
summaries is returned. -/
theorem summarize_text_fan_in (tok : Tokenizer) (maxLen overlap : Nat)
    (pipe : String → Option (List String)) (text : String)
    (chunks fp : List String) (res : String) (calls : List (String × Bool))
    (hch : chunk_text tok maxLen overlap text = some chunks)
    (htr : summarize_text_tr tok maxLen overlap pipe text = some (res, calls))
    (hfp : fp = (chunks.map (fun c => summarize_chunk pipe c false)).filter
        (fun s => decide (pyStrip s ≠ "")))
    (hn : 1 ≤ fp.length) :
    (fp.length ≤ 4 →
      res = pyJoin "\n\n" fp ∧ calls.filter (fun c => c.2) = []) ∧
    (4 < fp.length →
      calls.filter (fun c => c.2) = [(pyJoin "\n\n" fp, true)] ∧
      (summarize_chunk pipe (pyJoin "\n\n" fp) true ≠ "" →
        res = summarize_chunk pipe (pyJoin "\n\n" fp) true) ∧
      (summarize_chunk pipe (pyJoin "\n\n" fp) true = "" →
        res = pyJoin "\n\n" fp)) := by
  subst hfp
  by_cases h1 : pyStrip text = ""
  · simp only [chunk_text, if_pos h1, Option.some.injEq] at hch
    subst hch
    simp at hn
  · simp only [summarize_text_tr, if_neg h1, hch] at htr
    by_cases h2 : chunks = []
    · subst h2
      simp at hn
    · rw [if_neg h2] at htr
      split_ifs at htr with h3 h4 h5
      · rw [h3] at hn
        simp at hn
      · rw [Option.some.injEq, Prod.mk.injEq] at htr
        obtain ⟨hres, hcalls⟩ := htr
        subst hres
        subst hcalls
        constructor
        · intro hle
          omega
        · intro _
          refine ⟨?_, fun _ => rfl, ?_⟩
          · rw [List.filter_append, filter_snd_calls]
            rfl
          · intro h0
            rw [h0, pyStrip_empty] at h5
            exact absurd rfl h5
      · rw [Option.some.injEq, Prod.mk.injEq] at htr
        obtain ⟨hres, hcalls⟩ := htr
        subst hres
        subst hcalls
        constructor
        · intro hle
          omega
        · intro _
          rw [summarize_chunk_stripped] at h5
          push_neg at h5
          refine ⟨?_, fun hne0 => absurd h5 hne0, fun _ => rfl⟩
          rw [List.filter_append, filter_snd_calls]
          rfl
      · rw [Option.some.injEq, Prod.mk.injEq] at htr
        obtain ⟨hres, hcalls⟩ := htr
        subst hres
        subst hcalls
        constructor
        · intro _
          exact ⟨rfl, filter_snd_calls chunks⟩
        · intro hgt
          omega

/-- Witness for C3 at a concrete tokenizer, pipe and input (one chunk, so
no reduction call occurs and the result is the plain join). -/
theorem summarize_text_fan_in_witness :
    "S" = pyJoin "\n\n" ["S"] ∧
      ([("hello", false)] : List (String × Bool)).filter (fun c => c.2) = [] :=
  (summarize_text_fan_in charTok 512 50 (fun _ => some ["S"]) "hello"
    ["hello"] ["S"] "S" [("hello", false)]
    (by decide) (by decide) (by decide) (by decide)).1 (by decide)

/-- C4: a chunk whose bounded-summarizer invocation raises is not
propagated: its summary is the empty string (skip and continue), and in
particular when the bounded summarizer raises on every input,
`summarize_text` returns the empty string rather than raising. -/
theorem summarize_text_generation_failure (pipe : String → Option (List String)) :
    (∀ chunk b, pipe (selectPrompt chunk b ++ pyStrip chunk) = none →
      summarize_chunk pipe chunk b = "") ∧
    (∀ (tok : Tokenizer) (maxLen overlap : Nat) (text : String),
      overlap < maxLen → (∀ s, pipe s = none) →
      summarize_text tok maxLen overlap pipe text = some "") := by
  refine ⟨summarize_chunk_none pipe, ?_⟩
  intro tok maxLen overlap text hov hall
  obtain ⟨chunks, hch⟩ := chunk_text_total tok maxLen overlap text hov
  unfold summarize_text
  by_cases h1 : pyStrip text = ""
  · simp [summarize_text_tr, h1]
  · simp only [summarize_text_tr, if_neg h1, hch]
    have hfp : (chunks.map fun c => summarize_chunk pipe c false).filter
        (fun s => decide (pyStrip s ≠ "")) = [] := by
      rw [List.filter_eq_nil_iff]
      intro s hs
      obtain ⟨c, _, rfl⟩ := List.mem_map.mp hs
      rw [summarize_chunk_none pipe c false (hall _), pyStrip_empty]
      simp
    by_cases h2 : chunks = []
    · rw [if_pos h2]
      rfl
    · rw [if_neg h2, if_pos hfp]
      rfl

/-- Witness for C4 at a concrete always-raising pipe. -/
theorem summarize_text_generation_failure_witness :
    summarize_chunk (fun _ => none) "hi" false = "" ∧
      summarize_text charTok 512 50 (fun _ => none) "hi" = some "" :=
  ⟨(summarize_text_generation_failure (fun _ => none)).1 "hi" false rfl,
   (summarize_text_generation_failure (fun _ => none)).2 charTok 512 50 "hi"
     (by decide) (fun _ => rfl)⟩

/-! ### PDF extraction: C8 -/

/-- Joining all-empty page texts with blank lines yields a string made of
newline characters only. -/
lemma pyJoin_all_empty_chars (l : List String) :
    (∀ x ∈ l, x = "") → ∀ c ∈ (pyJoin "\n\n" l).data, c = '\n' := by
  induction l with
  | nil =>
    intro _ c hc
    exact absurd hc (List.not_mem_nil c)
  | cons a t ih =>
    cases t with
    | nil =>
      intro h c hc
      have ha : a = "" := h a (by simp)
      subst ha
      have hd : (pyJoin "\n\n" ([""] : List String)).data = [] := rfl
      rw [hd] at hc
      exact absurd hc (List.not_mem_nil c)
    | cons b t2 =>
      intro h c hc
      have ha : a = "" := h a (by simp)
      subst ha
      have hj : pyJoin "\n\n" ("" :: b :: t2) =
          "" ++ "\n\n" ++ pyJoin "\n\n" (b :: t2) := rfl
      rw [hj, String.data_append] at hc
      rcases List.mem_append.mp hc with hc1 | hc2
      · have hsep : ("" ++ "\n\n" : String).data = ['\n', '\n'] := rfl
        rw [hsep] at hc1
        simp only [List.mem_cons, List.not_mem_nil, or_false] at hc1
        rcases hc1 with rfl | rfl <;> rfl
      · exact ih (fun x hx => h x (List.mem_cons_of_mem _ hx)) c hc2

/-- Splitting an all-newline character list yields only empty lines. -/
lemma splitOnNl_all_nl (cs : List Char) :
    (∀ c ∈ cs, c = '\n') → ∀ l ∈ splitOnNl cs, l = [] := by
  induction cs with
  | nil =>
    intro _ l hl
    simp only [splitOnNl, List.mem_singleton] at hl
    exact hl
  | cons c cs ih =>
    intro h l hl
    have hc : c = '\n' := h c (by simp)
    subst hc
    simp only [splitOnNl, if_pos rfl] at hl
    rcases List.mem_cons.mp hl with rfl | hl
    · rfl
    · exact ih (fun x hx => h x (List.mem_cons_of_mem _ hx)) l hl

/-- When every page extracts no text, the whole-document extraction yields
the empty string. -/
lemma extract_text_all_empty (pages : List (Option String))
    (h : ∀ p ∈ pages, p.getD "" = "") :
    extract_text_from_pdf_pages pages = "" := by
  simp only [extract_text_from_pdf_pages]
  split_ifs with hp
  · rfl
  · have hpt : ∀ x ∈ pages.map (fun p => p.getD ""), x = "" := by
      intro x hx
      obtain ⟨p, hpmem, rfl⟩ := List.mem_map.mp hx
      exact h p hpmem
    have hchars := pyJoin_all_empty_chars _ hpt
    have hlines : ∀ s ∈ pySplitlines
        (pyJoin "\n\n" (pages.map fun p => p.getD "")), s = "" := by
      intro s hs
      simp only [pySplitlines] at hs
      split_ifs at hs with hd hnl
      · exact absurd hs (List.not_mem_nil s)
      all_goals
        obtain ⟨l, hlmem, rfl⟩ := List.mem_map.mp hs
        have hl : l ∈ splitOnNl
            (pyJoin "\n\n" (pages.map fun p => p.getD "")).data := by
          first
          | exact hlmem
          | exact List.dropLast_subset _ hlmem
        rw [splitOnNl_all_nl _ hchars l hl]
    have hfilter : ((pySplitlines
        (pyJoin "\n\n" (pages.map fun p => p.getD ""))).map pyStrip).filter
          (fun s => decide (s ≠ "")) = [] := by
      rw [List.filter_eq_nil_iff]
      intro s hs
      obtain ⟨s0, hs0, rfl⟩ := List.mem_map.mp hs
      rw [hlines s0 hs0, pyStrip_empty]
      simp
    rw [hfilter]
    rfl

/-- C8: for every PDF whose extraction yields zero pages, and for every
PDF whose pages each yield no extractable text, `summarize_pdf_bytes`
returns the pair `("", "")` without error. -/
theorem summarize_pdf_no_text (tok : Tokenizer) (maxLen overlap : Nat)
    (pipe : String → Option (List String)) (pages : List (Option String))
    (h : ∀ p ∈ pages, p.getD "" = "") :
    summarize_pdf_bytes tok maxLen overlap pipe pages = some ("", "") := by
  simp only [summarize_pdf_bytes, extract_text_all_empty pages h]
  have hsum : summarize_text tok maxLen overlap pipe "" = some "" := rfl
  rw [hsum]

/-- Witness for C8 at zero pages and at pages with no extractable text. -/
theorem summarize_pdf_no_text_witness :
    summarize_pdf_bytes charTok 512 50 (fun _ => none) [] = some ("", "") ∧
      summarize_pdf_bytes charTok 512 50 (fun _ => none) [none, some ""] =
        some ("", "") :=
  ⟨summarize_pdf_no_text charTok 512 50 (fun _ => none) [] (by decide),
   summarize_pdf_no_text charTok 512 50 (fun _ => none) [none, some ""]
     (by decide)⟩

end Summarizer
